import Mathlib

/-!
Verification development for `uiautomatorstartall.cpp`, a small supervisor
program that parses a '/'-separated device list, polls each device's idle
flag in an infinite loop, and spawns a worker thread per idle device that
runs two external adb commands.

The C++ source is shallowly embedded below:
* pure string helpers (`strip_spaces_inplace`, `get_devices`, the command
  strings, the usage messages) become Lean functions on `List Char` /
  `String`;
* `atoi` (glibc `strtol`-based, LP64 non-Windows build) and the
  `usleep(milliseconds * 1000)` argument computation become explicit
  integer arithmetic with 32/64-bit wrapping and saturation spelled out;
* the concurrent supervisor/worker behaviour becomes a labelled small-step
  transition relation `Step` on a system state `Sys`, in which each atomic
  access to a device's `std::atomic<bool>` flag is one transition.
-/

/-- C `isspace` in the default "C" locale, as used by
`lstrip_spaces_inplace` / `rstrip_spaces_inplace` through
`std::isspace(ch)` on an `unsigned char`: space, tab, newline, vertical
tab, form feed, carriage return. -/
def cIsSpace (c : Char) : Bool :=
  c = ' ' || c = '\t' || c = '\n' || c = '\x0b' || c = '\x0c' || c = '\r'

/-- Embedding of `lstrip_spaces_inplace` (uiautomatorstartall.cpp:67-74):
erase characters from the front up to the first non-space character. The
`size() == 0` early return is the identity on the empty list. -/
def lstrip_spaces (s : List Char) : List Char :=
  s.dropWhile cIsSpace

/-- Embedding of `rstrip_spaces_inplace` (uiautomatorstartall.cpp:76-83):
erase characters from the position after the last non-space character to
the end. -/
def rstrip_spaces (s : List Char) : List Char :=
  (s.reverse.dropWhile cIsSpace).reverse

/-- Embedding of `strip_spaces_inplace` (uiautomatorstartall.cpp:84-92):
left strip, then right strip. -/
def strip_spaces (s : List Char) : List Char :=
  rstrip_spaces (lstrip_spaces s)

/-- Helper for `cppSplit`: walks the character list accumulating the
current segment (in reverse), emitting a segment at each delimiter and the
final (possibly empty) segment at the end of the input. -/
def splitAux (d : Char) : List Char → List Char → List (List Char)
  | [], acc => [acc.reverse]
  | c :: cs, acc =>
    if c = d then acc.reverse :: splitAux d cs [] else splitAux d cs (c :: acc)

/-- Embedding of `adb_devices_output | std::views::split('/')`
(uiautomatorstartall.cpp:113): split on the delimiter, keeping empty
segments (a trailing delimiter yields a trailing empty segment); an empty
input range yields no segments at all. -/
def cppSplit (d : Char) (s : List Char) : List (List Char) :=
  if s.isEmpty then [] else splitAux d s []

/-- One record of the device state table (struct `DeviceInfo`,
uiautomatorstartall.cpp:93-97): an immutable name plus the shared
`std::atomic<bool> done` flag (`true` = idle, `false` = busy). The
heap-allocated `unique_ptr<atomic<bool>>` is modelled by the `Bool` value
it holds; each atomic load/store is a single transition of the step
relation below. -/
structure DeviceInfo where
  name : String
  done : Bool
deriving DecidableEq

/-- Body of the loop in `get_devices` (uiautomatorstartall.cpp:114-125):
materialise the segment, strip spaces in place, and emit a record with the
flag initialised to `true` only when the stripped segment is non-empty. -/
def mk_device (seg : List Char) : Option DeviceInfo :=
  let s := strip_spaces seg
  if s.isEmpty then none else some ⟨String.mk s, true⟩

/-- Embedding of `get_devices` (uiautomatorstartall.cpp:110-127). -/
def get_devices (adb_devices_output : String) : List DeviceInfo :=
  (cppSplit '/' adb_devices_output.toList).filterMap mk_device

/-- Two's-complement wrap of a mathematical integer into a signed 32-bit
value: `x mod 2^32` interpreted as signed. Used both for the (C11
implementation-defined / gcc `-fwrapv`-style) conversion of an
out-of-range `long` to `int`, and for the wrapping `int` multiplication in
`sleepcp`. -/
def wrap32s (x : Int) : Int :=
  (x + 2 ^ 31) % 2 ^ 32 - 2 ^ 31

/-- Saturation of the mathematical value of a digit string into the
64-bit `long` range, as `strtol` does on an LP64 platform (returns
`LONG_MIN`/`LONG_MAX` on overflow). -/
def clamp_long (v : Int) : Int :=
  if v < -(2 ^ 63) then -(2 ^ 63) else if 2 ^ 63 - 1 < v then 2 ^ 63 - 1 else v

/-- Leading whitespace skipped by `strtol` before the subject sequence. -/
def skip_ws (s : List Char) : List Char :=
  s.dropWhile cIsSpace

/-- Optional single `+`/`-` sign consumed by `strtol`: the sign factor and
the remainder of the string. -/
def split_sign : List Char → Int × List Char
  | '+' :: r => (1, r)
  | '-' :: r => (-1, r)
  | s => (1, s)

/-- The digit sequence `strtol` converts: the maximal run of decimal
digits after optional whitespace and an optional sign. Empty iff no
conversion is performed (in which case `atoi` yields 0). -/
def atoi_digits (s : List Char) : List Char :=
  (split_sign (skip_ws s)).2.takeWhile Char.isDigit

/-- Base-10 value of a digit run. -/
def digitsToNat (ds : List Char) : Nat :=
  ds.foldl (fun a c => 10 * a + (c.toNat - '0'.toNat)) 0

/-- Mathematical (unbounded) value of the sign and digit run accepted by
`strtol` on the input. -/
def strtol_value (s : List Char) : Int :=
  (split_sign (skip_ws s)).1 * digitsToNat (atoi_digits s)

/-- Embedding of `::atoi(argv[2])` (uiautomatorstartall.cpp:137) on the
non-Windows LP64 build: `(int) strtol(s, nullptr, 10)`. No digits means no
conversion and result 0; otherwise the mathematical value is saturated to
the `long` range and then truncated to `int`. -/
def atoi (s : List Char) : Int :=
  if atoi_digits s = [] then 0 else wrap32s (clamp_long (strtol_value s))

/-- Embedding of the argument of `usleep` in `sleepcp`
(uiautomatorstartall.cpp:58-65, non-Windows branch): `milliseconds * 1000`
computed in (wrapping) 32-bit signed `int` arithmetic. -/
def sleepcp_usleep_arg (milliseconds : Int) : Int :=
  wrap32s (milliseconds * 1000)

/-- Embedding of `connect_cmd` (uiautomatorstartall.cpp:101): the global
`adb_exe`, the literal `" connect "`, and the device name. -/
def connect_cmd (adb_exe name : String) : String :=
  adb_exe ++ " connect " ++ name

/-- Embedding of `run_server` (uiautomatorstartall.cpp:102-104). The two
adjacent C++ string literals are pasted by the compiler; they are kept as
an explicit concatenation here. -/
def run_server (adb_exe name : String) : String :=
  adb_exe ++ " -s " ++ name ++
    (" shell am instrument -w -r -e debug false -e class com.github.uiautomator.stub.Stub " ++
      "com.github.uiautomator.test/androidx.test.runner.AndroidJUnitRunner")

/-- The global `adb_exe` after `adb_exe.append(argv[1])`
(uiautomatorstartall.cpp:56 and 138): the initially empty string with the
first CLI argument appended. -/
def adb_exe_of (argv1 : String) : String :=
  "" ++ argv1

/-- First stderr line of the usage error (uiautomatorstartall.cpp:132),
including the embedded newline of the literal. -/
def usage_msg (argv0 : String) : String :=
  "Usage: " ++ argv0 ++ "adbpath sleeptime ADBDEVICE/ADBDEVICE1/ADBDEVICE2 ...\n"

/-- Second stderr line of the usage error (uiautomatorstartall.cpp:133-134). -/
def example_msg (argv0 : String) : String :=
  "Example: " ++ argv0 ++
    "adb.exe 5000 127.0.0.1:5555/127.0.0.1:5570/127.0.0.1:5585/127.0.0.1:5590/127.0.0.1:5595\n"

/-- Outcome of `main`'s argument handling (uiautomatorstartall.cpp:130-139):
either the usage error (its stderr lines and the `exit(EXIT_FAILURE)` code,
with no device record created and no thread started), or the values the
process continues with: the global `adb_exe`, the parsed sleep time, and
the device state table. -/
inductive StartResult where
  | usageError (stderrLines : List String) (exit_code : Nat)
  | started (adb_exe : String) (sleep_time : Int) (devices : List DeviceInfo)
deriving DecidableEq

/-- Embedding of the startup portion of `main`
(uiautomatorstartall.cpp:128-139): `argc < 4` (i.e. fewer than four
entries in `argv`) prints the two usage lines to stderr and exits with
`EXIT_FAILURE` (= 1); otherwise `sleep_time`, `adb_exe` and `devices` are
computed from `argv[2]`, `argv[1]`, `argv[3]` with no further validation. -/
def main_start : List String → StartResult
  | _a0 :: a1 :: a2 :: a3 :: _ =>
    .started (adb_exe_of a1) (atoi a2.toList) (get_devices a3)
  | argv =>
    .usageError [usage_msg (argv.headD ""), example_msg (argv.headD "")] 1

/-- Program counter of the supervisor loop in `main`
(uiautomatorstartall.cpp:143-155): `scanPrint i` is about to execute the
`cout` statements for device `i` (or, when `i` is past the end of the
table, to leave the `for` loop and sleep); `scanLaunch i` is about to test
`*d.done` and possibly spawn a thread for device `i`. The two phases are
separate because the source reads the atomic flag twice (once in line 148
to print, once in line 149 to branch). -/
inductive SupPc where
  | scanPrint (i : Nat)
  | scanLaunch (i : Nat)
deriving DecidableEq

/-- One spawned `systemthread` (uiautomatorstartall.cpp:98-108), bound to
the device record at index `dev`. `pc` = 0: about to store `false` into
the flag (line 100); 1: about to run `system(connect_cmd)` (line 105);
2: about to run `system(run_server)` (line 106); 3: about to store `true`
into the flag (line 107); 4: returned. -/
structure Worker where
  dev : Nat
  pc : Nat
deriving DecidableEq

/-- Whole-system state: the global `adb_exe`, the parsed `sleep_time`, the
device state table, the supervisor's program counter, every spawned worker
thread (`allthreads`, in spawn order, never removed — threads are never
joined), and the list of stdout lines (most recent first). -/
structure Sys where
  adb : String
  sleep_time : Int
  devices : List DeviceInfo
  sup : SupPc
  workers : List Worker
  out : List String
deriving DecidableEq

/-- Store `b` into the `done` flag of the record at index `i` (out-of-range
indices touch nothing; the program only ever uses in-range indices). -/
def setDone : List DeviceInfo → Nat → Bool → List DeviceInfo
  | [], _, _ => []
  | d :: ds, 0, b => ⟨d.name, b⟩ :: ds
  | d :: ds, i + 1, b => d :: setDone ds i b

/-- Replace the worker at index `w` (out-of-range indices touch nothing). -/
def setWk : List Worker → Nat → Worker → List Worker
  | [], _, _ => []
  | _ :: ks, 0, k => k :: ks
  | k0 :: ks, w + 1, k => k0 :: setWk ks w k

/-- Observable action of one supervisor-thread transition. -/
inductive SupEv where
  | printLine (line : String)
  | spawn (i : Nat)
  | advance (i : Nat)
  | sleep (usec : Int)
deriving DecidableEq

/-- Observable action of one worker-thread transition: an atomic store to
its device's flag, or a blocking `system` call returning some (discarded)
result. -/
inductive WkEv where
  | setFlag (dev : Nat) (b : Bool)
  | execCmd (cmd : String) (result : Int)
deriving DecidableEq

/-- A transition label: which thread moved and what it did. -/
inductive Label where
  | sup (ev : SupEv)
  | wk (w : Nat) (ev : WkEv)
deriving DecidableEq

/-- The stdout line printed for a device record by
uiautomatorstartall.cpp:147-148: name, tab, then the flag through
`operator<<(bool)` with default (`noboolalpha`) formatting, i.e. `1` for
idle and `0` for busy. The trailing `'\n'` terminates the line. -/
def scan_line (d : DeviceInfo) : String :=
  d.name ++ "\t" ++ (if d.done then "1" else "0")

/-- Labelled small-step interleaving semantics of the supervisor loop
(uiautomatorstartall.cpp:143-155) and of every spawned `systemthread`
(uiautomatorstartall.cpp:98-108). Any enabled thread may move; each
transition contains exactly one atomic access to a device flag (or none),
matching `std::atomic<bool>`. -/
inductive Step : Sys → Label → Sys → Prop where
  | sup_print (s : Sys) (i : Nat) (d : DeviceInfo)
      (hpc : s.sup = .scanPrint i) (hd : s.devices[i]? = some d) :
      Step s (.sup (.printLine (scan_line d)))
        { s with out := scan_line d :: s.out, sup := .scanLaunch i }
  | sup_launch_idle (s : Sys) (i : Nat) (d : DeviceInfo)
      (hpc : s.sup = .scanLaunch i) (hd : s.devices[i]? = some d)
      (hidle : d.done = true) :
      Step s (.sup (.spawn i))
        { s with workers := s.workers ++ [⟨i, 0⟩], sup := .scanPrint (i + 1) }
  | sup_launch_busy (s : Sys) (i : Nat) (d : DeviceInfo)
      (hpc : s.sup = .scanLaunch i) (hd : s.devices[i]? = some d)
      (hbusy : d.done = false) :
      Step s (.sup (.advance i)) { s with sup := .scanPrint (i + 1) }
  | sup_scan_end (s : Sys) (i : Nat)
      (hpc : s.sup = .scanPrint i) (hi : s.devices.length ≤ i) :
      Step s (.sup (.sleep (sleepcp_usleep_arg s.sleep_time)))
        { s with sup := .scanPrint 0 }
  | wk_set_busy (s : Sys) (w : Nat) (k : Worker)
      (hw : s.workers[w]? = some k) (hpc : k.pc = 0) :
      Step s (.wk w (.setFlag k.dev false))
        { s with devices := setDone s.devices k.dev false,
                 workers := setWk s.workers w ⟨k.dev, 1⟩ }
  | wk_connect (s : Sys) (w : Nat) (k : Worker) (d : DeviceInfo) (r : Int)
      (hw : s.workers[w]? = some k) (hpc : k.pc = 1)
      (hd : s.devices[k.dev]? = some d) :
      Step s (.wk w (.execCmd (connect_cmd s.adb d.name) r))
        { s with workers := setWk s.workers w ⟨k.dev, 2⟩ }
  | wk_run (s : Sys) (w : Nat) (k : Worker) (d : DeviceInfo) (r : Int)
      (hw : s.workers[w]? = some k) (hpc : k.pc = 2)
      (hd : s.devices[k.dev]? = some d) :
      Step s (.wk w (.execCmd (run_server s.adb d.name) r))
        { s with workers := setWk s.workers w ⟨k.dev, 3⟩ }
  | wk_set_idle (s : Sys) (w : Nat) (k : Worker)
      (hw : s.workers[w]? = some k) (hpc : k.pc = 3) :
      Step s (.wk w (.setFlag k.dev true))
        { s with devices := setDone s.devices k.dev true,
                 workers := setWk s.workers w ⟨k.dev, 4⟩ }

/-- Some thread takes some step. -/
def StepAny (s t : Sys) : Prop :=
  ∃ l, Step s l t

/-- Reachability in the interleaving semantics. -/
def Reachable : Sys → Sys → Prop :=
  Relation.ReflTransGen StepAny

/-- System state at the top of the `while (1)` loop on first entry
(uiautomatorstartall.cpp:141-143): the header `Devices:` has been printed,
no worker thread exists, the scan starts at record 0. -/
def initSys (adb : String) (sleep_time : Int) (devices : List DeviceInfo) : Sys :=
  { adb := adb, sleep_time := sleep_time, devices := devices,
    sup := .scanPrint 0, workers := [], out := ["Devices:"] }

/-- A concrete one-device state with one freshly spawned worker, used to
instantiate universally quantified theorems below. -/
def sampleSys : Sys :=
  { adb := "adb", sleep_time := 0, devices := [⟨"a", true⟩],
    sup := .scanPrint 0, workers := [⟨0, 0⟩], out := ["Devices:"] }

/-- The loop state produced by invoking the program as
`./prog adb 0 a`: one device named `a`, polling interval 0. -/
def raceSys0 : Sys :=
  initSys (adb_exe_of "adb") (atoi "0".toList) (get_devices "a")

/-! Helper lemmas about the flag store and the worker-slot update. -/

theorem setDone_map_name (ds : List DeviceInfo) (i : Nat) (b : Bool) :
    (setDone ds i b).map DeviceInfo.name = ds.map DeviceInfo.name := by
  induction ds generalizing i with
  | nil => rfl
  | cons d ds ih =>
    cases i with
    | zero => simp [setDone]
    | succ i => simp [setDone, ih]

theorem setDone_length (ds : List DeviceInfo) (i : Nat) (b : Bool) :
    (setDone ds i b).length = ds.length := by
  have h := congrArg List.length (setDone_map_name ds i b)
  simpa using h

theorem setDone_getElem_self (ds : List DeviceInfo) (i : Nat) (b : Bool)
    (d : DeviceInfo) (hd : ds[i]? = some d) :
    (setDone ds i b)[i]? = some ⟨d.name, b⟩ := by
  induction ds generalizing i with
  | nil => simp at hd
  | cons d0 ds ih =>
    cases i with
    | zero => simp at hd; simp [setDone, hd]
    | succ i => simp at hd; simpa [setDone] using ih i hd

theorem setDone_getElem_ne (ds : List DeviceInfo) (i : Nat) (b : Bool)
    (j : Nat) (hj : j ≠ i) : (setDone ds i b)[j]? = ds[j]? := by
  induction ds generalizing i j with
  | nil => simp [setDone]
  | cons d0 ds ih =>
    cases i with
    | zero =>
      cases j with
      | zero => exact absurd rfl hj
      | succ j => simp [setDone]
    | succ i =>
      cases j with
      | zero => simp [setDone]
      | succ j => simpa [setDone] using ih i j (by omega)

theorem setWk_getElem_self (ws : List Worker) (w : Nat) (k0 k : Worker)
    (hw : ws[w]? = some k0) : (setWk ws w k)[w]? = some k := by
  induction ws generalizing w with
  | nil => simp at hw
  | cons x ws ih =>
    cases w with
    | zero => simp [setWk]
    | succ w => simp at hw; simpa [setWk] using ih w hw

theorem setWk_getElem_ne (ws : List Worker) (w : Nat) (k : Worker)
    (v : Nat) (hv : v ≠ w) : (setWk ws w k)[v]? = ws[v]? := by
  induction ws generalizing w v with
  | nil => simp [setWk]
  | cons x ws ih =>
    cases w with
    | zero =>
      cases v with
      | zero => exact absurd rfl hv
      | succ v => simp [setWk]
    | succ w =>
      cases v with
      | zero => simp [setWk]
      | succ v => simpa [setWk] using ih w v (by omega)

theorem setWk_length (ws : List Worker) (w : Nat) (k : Worker) :
    (setWk ws w k).length = ws.length := by
  induction ws generalizing w with
  | nil => rfl
  | cons x ws ih =>
    cases w with
    | zero => simp [setWk]
    | succ w => simp [setWk, ih]

/-! Inversion and frame lemmas for the step relation. -/

/-- Classification of every supervisor transition. -/
theorem step_sup_cases {s : Sys} {ev : SupEv} {t : Sys}
    (h : Step s (.sup ev) t) :
    (∃ i d, s.sup = .scanPrint i ∧ s.devices[i]? = some d
        ∧ ev = .printLine (scan_line d)
        ∧ t = { s with out := scan_line d :: s.out, sup := .scanLaunch i })
    ∨ (∃ i d, s.sup = .scanLaunch i ∧ s.devices[i]? = some d ∧ d.done = true
        ∧ ev = .spawn i
        ∧ t = { s with workers := s.workers ++ [⟨i, 0⟩], sup := .scanPrint (i + 1) })
    ∨ (∃ i d, s.sup = .scanLaunch i ∧ s.devices[i]? = some d ∧ d.done = false
        ∧ ev = .advance i ∧ t = { s with sup := .scanPrint (i + 1) })
    ∨ (∃ i, s.sup = .scanPrint i ∧ s.devices.length ≤ i
        ∧ ev = .sleep (sleepcp_usleep_arg s.sleep_time)
        ∧ t = { s with sup := .scanPrint 0 }) := by
  cases h with
  | sup_print i d hpc hd => exact Or.inl ⟨i, d, hpc, hd, rfl, rfl⟩
  | sup_launch_idle i d hpc hd hidle =>
    exact Or.inr (Or.inl ⟨i, d, hpc, hd, hidle, rfl, rfl⟩)
  | sup_launch_busy i d hpc hd hbusy =>
    exact Or.inr (Or.inr (Or.inl ⟨i, d, hpc, hd, hbusy, rfl, rfl⟩))
  | sup_scan_end i hpc hi =>
    exact Or.inr (Or.inr (Or.inr ⟨i, hpc, hi, rfl, rfl⟩))

/-- Classification of every transition of the worker at slot `w`. -/
theorem step_wk_cases {s : Sys} {w : Nat} {ev : WkEv} {t : Sys}
    (h : Step s (.wk w ev) t) :
    ∃ k, s.workers[w]? = some k ∧
      ((k.pc = 0 ∧ ev = .setFlag k.dev false
          ∧ t = { s with devices := setDone s.devices k.dev false,
                         workers := setWk s.workers w ⟨k.dev, 1⟩ })
        ∨ (∃ d r, k.pc = 1 ∧ s.devices[k.dev]? = some d
            ∧ ev = .execCmd (connect_cmd s.adb d.name) r
            ∧ t = { s with workers := setWk s.workers w ⟨k.dev, 2⟩ })
        ∨ (∃ d r, k.pc = 2 ∧ s.devices[k.dev]? = some d
            ∧ ev = .execCmd (run_server s.adb d.name) r
            ∧ t = { s with workers := setWk s.workers w ⟨k.dev, 3⟩ })
        ∨ (k.pc = 3 ∧ ev = .setFlag k.dev true
            ∧ t = { s with devices := setDone s.devices k.dev true,
                           workers := setWk s.workers w ⟨k.dev, 4⟩ })) := by
  cases h with
  | wk_set_busy =>
    rename_i k hpc hw
    exact ⟨k, hw, Or.inl ⟨hpc, rfl, rfl⟩⟩
  | wk_connect =>
    rename_i k d r hpc hd hw
    exact ⟨k, hw, Or.inr (Or.inl ⟨d, r, hpc, hd, rfl, rfl⟩)⟩
  | wk_run =>
    rename_i k d r hpc hd hw
    exact ⟨k, hw, Or.inr (Or.inr (Or.inl ⟨d, r, hpc, hd, rfl, rfl⟩))⟩
  | wk_set_idle =>
    rename_i k hpc hw
    exact ⟨k, hw, Or.inr (Or.inr (Or.inr ⟨hpc, rfl, rfl⟩))⟩

/-- No transition adds, removes or renames a device record. -/
theorem step_names {s : Sys} {l : Label} {t : Sys} (h : Step s l t) :
    t.devices.map DeviceInfo.name = s.devices.map DeviceInfo.name := by
  cases h <;> simp [setDone_map_name]

/-- No transition changes the number of device records. -/
theorem step_devices_length {s : Sys} {l : Label} {t : Sys} (h : Step s l t) :
    t.devices.length = s.devices.length := by
  have hn := step_names h
  have := congrArg List.length hn
  simpa using this

/-- Stdout only grows, one scan line at a time, and only for a record of
the table. -/
theorem step_out {s : Sys} {l : Label} {t : Sys} (h : Step s l t) :
    t.out = s.out ∨
      ∃ (i : Nat) (d : DeviceInfo),
        s.devices[i]? = some d ∧ t.out = scan_line d :: s.out := by
  cases h with
  | sup_print i d hpc hd => exact Or.inr ⟨i, d, hd, rfl⟩
  | sup_launch_idle i d hpc hd hidle => exact Or.inl rfl
  | sup_launch_busy i d hpc hd hbusy => exact Or.inl rfl
  | sup_scan_end i hpc hi => exact Or.inl rfl
  | wk_set_busy => exact Or.inl rfl
  | wk_connect => exact Or.inl rfl
  | wk_run => exact Or.inl rfl
  | wk_set_idle => exact Or.inl rfl

/-! Helper lemmas about whitespace stripping and the parser. -/

theorem all_takeWhile (p : Char → Bool) (l : List Char) :
    (l.takeWhile p).all p = true := by
  rw [List.all_eq_true]
  intro x hx
  exact List.mem_takeWhile_imp hx

theorem lstrip_decomp (s : List Char) :
    s = s.takeWhile cIsSpace ++ lstrip_spaces s :=
  (List.takeWhile_append_dropWhile (p := cIsSpace) (l := s)).symm

theorem rstrip_decomp (s : List Char) :
    s = rstrip_spaces s ++ (s.reverse.takeWhile cIsSpace).reverse := by
  conv_lhs => rw [← s.reverse_reverse]
  conv_lhs =>
    rw [← List.takeWhile_append_dropWhile (p := cIsSpace) (l := s.reverse)]
  rw [List.reverse_append]
  rfl

/-- Stripping removes a fully-whitespace prefix and a fully-whitespace
suffix and nothing else: the segment is the stripped core with
all-whitespace flanks, so internal whitespace is preserved. -/
theorem strip_decomp (s : List Char) :
    ∃ pre post, s = pre ++ strip_spaces s ++ post
      ∧ pre.all cIsSpace = true ∧ post.all cIsSpace = true := by
  refine ⟨s.takeWhile cIsSpace, ((lstrip_spaces s).reverse.takeWhile cIsSpace).reverse,
    ?_, all_takeWhile cIsSpace s, ?_⟩
  · conv_lhs => rw [lstrip_decomp s]
    rw [List.append_assoc]
    congr 1
    exact rstrip_decomp (lstrip_spaces s)
  · rw [List.all_reverse]
    exact all_takeWhile cIsSpace (lstrip_spaces s).reverse

theorem dropWhile_head_false (p : Char → Bool) (l : List Char) :
    ∀ a t, l.dropWhile p = a :: t → p a = false := by
  induction l with
  | nil => intro a t h; simp at h
  | cons c cs ih =>
    intro a t h
    by_cases hc : p c
    · rw [List.dropWhile_cons_of_pos hc] at h
      exact ih a t h
    · rw [List.dropWhile_cons_of_neg hc] at h
      cases h
      simpa using hc

/-- The stripped segment does not start with whitespace. -/
theorem strip_head_not_space (s : List Char) (a : Char) (t : List Char)
    (h : strip_spaces s = a :: t) : cIsSpace a = false := by
  have hdec := rstrip_decomp (lstrip_spaces s)
  rw [show rstrip_spaces (lstrip_spaces s) = strip_spaces s from rfl, h] at hdec
  exact dropWhile_head_false cIsSpace s a _
    (by simpa [lstrip_spaces] using hdec)

/-- The stripped segment does not end with whitespace. -/
theorem strip_last_not_space (s : List Char) (a : Char)
    (h : (strip_spaces s).getLast? = some a) : cIsSpace a = false := by
  have hs : strip_spaces s = ((lstrip_spaces s).reverse.dropWhile cIsSpace).reverse := rfl
  rw [hs, List.getLast?_reverse] at h
  rcases hh : (lstrip_spaces s).reverse.dropWhile cIsSpace with _ | ⟨b, t⟩
  · rw [hh] at h; simp at h
  · rw [hh] at h
    simp at h
    subst h
    exact dropWhile_head_false cIsSpace _ b t hh

/-- `mk_device` succeeds exactly on segments whose stripped form is
non-empty, and then records that stripped form with an idle flag. -/
theorem mk_device_eq_some (seg : List Char) (d : DeviceInfo)
    (h : mk_device seg = some d) :
    d.name.toList = strip_spaces seg ∧ d.done = true
      ∧ strip_spaces seg ≠ [] := by
  unfold mk_device at h
  by_cases he : (strip_spaces seg).isEmpty
  · simp [he] at h
  · simp [he] at h
    subst h
    refine ⟨rfl, rfl, by simpa [List.isEmpty_iff] using he⟩

/-- The names produced by the device-list loop are exactly the stripped
segments that are non-empty, in segment order. -/
theorem filterMap_mk_device_names (L : List (List Char)) :
    ((L.filterMap mk_device).map (fun d => d.name.data))
      = (L.map strip_spaces).filter (fun t => !t.isEmpty) := by
  induction L with
  | nil => rfl
  | cons seg L ih =>
    by_cases h : (strip_spaces seg).isEmpty
    · simp [mk_device, h, List.filterMap_cons, List.filter_cons, ih]
    · simp [mk_device, h, List.filterMap_cons, List.filter_cons, ih]

/-! Arithmetic lemmas about the 32-bit wrap. -/

theorem wrap32s_eq_self {x : Int} (h1 : -(2 ^ 31) ≤ x) (h2 : x < 2 ^ 31) :
    wrap32s x = x := by
  unfold wrap32s
  rw [Int.emod_eq_of_lt (by omega) (by omega)]
  omega

theorem wrap32s_bounds (x : Int) :
    -(2 ^ 31) ≤ wrap32s x ∧ wrap32s x < 2 ^ 31 := by
  unfold wrap32s
  have h1 : 0 ≤ (x + 2 ^ 31) % 2 ^ 32 := Int.emod_nonneg _ (by norm_num)
  have h2 : (x + 2 ^ 31) % 2 ^ 32 < 2 ^ 32 := Int.emod_lt_of_pos _ (by norm_num)
  omega

/-! Small list lemmas. -/

theorem getElem?_some_mem {α : Type} {l : List α} {i : Nat} {a : α}
    (h : l[i]? = some a) : a ∈ l := by
  induction l generalizing i with
  | nil => simp at h
  | cons x xs ih =>
    cases i with
    | zero => simp at h; simp [h]
    | succ i =>
      simp only [List.getElem?_cons_succ] at h
      exact List.mem_cons_of_mem x (ih h)

theorem getElem?_some_lt {α : Type} {l : List α} {i : Nat} {a : α}
    (h : l[i]? = some a) : i < l.length := by
  induction l generalizing i with
  | nil => simp at h
  | cons x xs ih =>
    cases i with
    | zero => simp
    | succ i =>
      simp only [List.getElem?_cons_succ] at h
      have := ih h
      simp
      omega

theorem last_of_append_singleton (ys : List Char) (c : Char) :
    (ys ++ [c]).getLast? = some c := by
  rw [List.getLast?_append_of_ne_nil _ (by simp)]
  rfl

/-- A per-device scan line can never be the header line: it always ends in
the flag numeral, while the header ends in a colon. -/
theorem scan_line_ne_header (d : DeviceInfo) : scan_line d ≠ "Devices:" := by
  intro h
  have hd2 := congrArg String.data h
  rw [scan_line, String.data_append, String.data_append] at hd2
  have hc : (if d.done then "1" else "0").data = [if d.done then '1' else '0'] := by
    cases d.done <;> rfl
  rw [hc] at hd2
  have hlast := congrArg List.getLast? hd2
  rw [last_of_append_singleton] at hlast
  rw [show "Devices:".data.getLast? = some ':' from by decide] at hlast
  cases hdone : d.done <;> rw [hdone] at hlast <;> exact absurd hlast (by decide)

/-- What any single transition of the worker in slot `w` can be, as a
function of its program counter. -/
theorem wk_step_at_pc {s : Sys} {w : Nat} {k : Worker}
    (hw : s.workers[w]? = some k) {ev : WkEv} {t : Sys}
    (h : Step s (.wk w ev) t) :
    (k.pc = 0 ∧ ev = .setFlag k.dev false)
    ∨ (∃ d r, k.pc = 1 ∧ s.devices[k.dev]? = some d
        ∧ ev = .execCmd (connect_cmd s.adb d.name) r)
    ∨ (∃ d r, k.pc = 2 ∧ s.devices[k.dev]? = some d
        ∧ ev = .execCmd (run_server s.adb d.name) r)
    ∨ (k.pc = 3 ∧ ev = .setFlag k.dev true) := by
  obtain ⟨k0, hk0, hc⟩ := step_wk_cases h
  have hkk : k0 = k := by
    rw [hw] at hk0
    exact (Option.some.inj hk0).symm
  subst hkk
  rcases hc with ⟨h1, h2, _⟩ | ⟨d, r, h1, h2, h3, _⟩ | ⟨d, r, h1, h2, h3, _⟩ | ⟨h1, h2, _⟩
  · exact Or.inl ⟨h1, h2⟩
  · exact Or.inr (Or.inl ⟨d, r, h1, h2, h3⟩)
  · exact Or.inr (Or.inr (Or.inl ⟨d, r, h1, h2, h3⟩))
  · exact Or.inr (Or.inr (Or.inr ⟨h1, h2⟩))

/-- Claim C1: a Worker invocation first sets its device record flag to
busy before running any external command, then runs the connect command to
completion, then the run-test-server command, and finally sets the flag
back to idle unconditionally (for arbitrary results `r1`, `r2` of the two
`system` calls); the flag reads idle again only in the final state, after
both external invocations have returned. The last five conjuncts pin the
order: at each stage the worker has no transition other than the listed
one, and after the final flag store it has none at all. -/
theorem claim_C1 (s : Sys) (w dev : Nat) (d : DeviceInfo)
    (hw : s.workers[w]? = some ⟨dev, 0⟩) (hd : s.devices[dev]? = some d)
    (r1 r2 : Int) :
    ∃ s1 s2 s3 s4 : Sys,
      Step s (.wk w (.setFlag dev false)) s1
      ∧ Step s1 (.wk w (.execCmd (connect_cmd s.adb d.name) r1)) s2
      ∧ Step s2 (.wk w (.execCmd (run_server s.adb d.name) r2)) s3
      ∧ Step s3 (.wk w (.setFlag dev true)) s4
      ∧ (∃ x, s1.devices[dev]? = some x ∧ x.done = false)
      ∧ (∃ x, s2.devices[dev]? = some x ∧ x.done = false)
      ∧ (∃ x, s3.devices[dev]? = some x ∧ x.done = false)
      ∧ (∃ x, s4.devices[dev]? = some x ∧ x.done = true)
      ∧ s4.workers[w]? = some ⟨dev, 4⟩
      ∧ (∀ ev t, Step s (.wk w ev) t → ev = .setFlag dev false)
      ∧ (∀ ev t, Step s1 (.wk w ev) t →
          ∃ r, ev = .execCmd (connect_cmd s.adb d.name) r)
      ∧ (∀ ev t, Step s2 (.wk w ev) t →
          ∃ r, ev = .execCmd (run_server s.adb d.name) r)
      ∧ (∀ ev t, Step s3 (.wk w ev) t → ev = .setFlag dev true)
      ∧ (∀ ev t, ¬ Step s4 (.wk w ev) t) := by
  have hw1 : (setWk s.workers w ⟨dev, 1⟩)[w]? = some ⟨dev, 1⟩ :=
    setWk_getElem_self s.workers w ⟨dev, 0⟩ ⟨dev, 1⟩ hw
  have hw2 : (setWk (setWk s.workers w ⟨dev, 1⟩) w ⟨dev, 2⟩)[w]? = some ⟨dev, 2⟩ :=
    setWk_getElem_self _ w ⟨dev, 1⟩ ⟨dev, 2⟩ hw1
  have hw3 : (setWk (setWk (setWk s.workers w ⟨dev, 1⟩) w ⟨dev, 2⟩) w ⟨dev, 3⟩)[w]?
      = some ⟨dev, 3⟩ :=
    setWk_getElem_self _ w ⟨dev, 2⟩ ⟨dev, 3⟩ hw2
  have hw4 : (setWk (setWk (setWk (setWk s.workers w ⟨dev, 1⟩) w ⟨dev, 2⟩) w ⟨dev, 3⟩)
        w ⟨dev, 4⟩)[w]? = some ⟨dev, 4⟩ :=
    setWk_getElem_self _ w ⟨dev, 3⟩ ⟨dev, 4⟩ hw3
  have hd1 : (setDone s.devices dev false)[dev]? = some ⟨d.name, false⟩ :=
    setDone_getElem_self s.devices dev false d hd
  have hd4 : (setDone (setDone s.devices dev false) dev true)[dev]?
      = some ⟨d.name, true⟩ :=
    setDone_getElem_self _ dev true ⟨d.name, false⟩ hd1
  refine ⟨{ s with devices := setDone s.devices dev false,
                   workers := setWk s.workers w ⟨dev, 1⟩ },
          { s with devices := setDone s.devices dev false,
                   workers := setWk (setWk s.workers w ⟨dev, 1⟩) w ⟨dev, 2⟩ },
          { s with devices := setDone s.devices dev false,
                   workers := setWk (setWk (setWk s.workers w ⟨dev, 1⟩) w ⟨dev, 2⟩)
                     w ⟨dev, 3⟩ },
          { s with devices := setDone (setDone s.devices dev false) dev true,
                   workers := setWk (setWk (setWk (setWk s.workers w ⟨dev, 1⟩)
                     w ⟨dev, 2⟩) w ⟨dev, 3⟩) w ⟨dev, 4⟩ },
          ?_, ?_, ?_, ?_, ?_, ?_, ?_, ?_, ?_, ?_, ?_, ?_, ?_, ?_⟩
  · exact Step.wk_set_busy s w ⟨dev, 0⟩ hw rfl
  · exact Step.wk_connect _ w ⟨dev, 1⟩ ⟨d.name, false⟩ r1 hw1 rfl hd1
  · exact Step.wk_run _ w ⟨dev, 2⟩ ⟨d.name, false⟩ r2 hw2 rfl hd1
  · exact Step.wk_set_idle _ w ⟨dev, 3⟩ hw3 rfl
  · exact ⟨⟨d.name, false⟩, hd1, rfl⟩
  · exact ⟨⟨d.name, false⟩, hd1, rfl⟩
  · exact ⟨⟨d.name, false⟩, hd1, rfl⟩
  · exact ⟨⟨d.name, true⟩, hd4, rfl⟩
  · exact hw4
  · intro ev t h
    rcases wk_step_at_pc hw h with ⟨_, hev⟩ | ⟨d0, r0, hpc, _, _⟩
      | ⟨d0, r0, hpc, _, _⟩ | ⟨hpc, _⟩
    · exact hev
    · simp at hpc
    · simp at hpc
    · simp at hpc
  · intro ev t h
    rcases wk_step_at_pc hw1 h with ⟨hpc, _⟩ | ⟨d0, r0, _, hd0, hev⟩
      | ⟨d0, r0, hpc, _, _⟩ | ⟨hpc, _⟩
    · simp at hpc
    · have hd0b : (setDone s.devices dev false)[dev]? = some d0 := hd0
      rw [hd1] at hd0b
      have hdd : d0 = ⟨d.name, false⟩ := (Option.some.inj hd0b).symm
      subst hdd
      exact ⟨r0, hev⟩
    · simp at hpc
    · simp at hpc
  · intro ev t h
    rcases wk_step_at_pc hw2 h with ⟨hpc, _⟩ | ⟨d0, r0, hpc, _, _⟩
      | ⟨d0, r0, _, hd0, hev⟩ | ⟨hpc, _⟩
    · simp at hpc
    · simp at hpc
    · have hd0b : (setDone s.devices dev false)[dev]? = some d0 := hd0
      rw [hd1] at hd0b
      have hdd : d0 = ⟨d.name, false⟩ := (Option.some.inj hd0b).symm
      subst hdd
      exact ⟨r0, hev⟩
    · simp at hpc
  · intro ev t h
    rcases wk_step_at_pc hw3 h with ⟨hpc, _⟩ | ⟨d0, r0, hpc, _, _⟩
      | ⟨d0, r0, hpc, _, _⟩ | ⟨_, hev⟩
    · simp at hpc
    · simp at hpc
    · simp at hpc
    · exact hev
  · intro ev t h
    rcases wk_step_at_pc hw4 h with ⟨hpc, _⟩ | ⟨d0, r0, hpc, _, _⟩
      | ⟨d0, r0, hpc, _, _⟩ | ⟨hpc, _⟩
    · simp at hpc
    · simp at hpc
    · simp at hpc
    · simp at hpc

/-- Witness for C1 at a concrete state: one device `a`, one freshly
spawned worker, arbitrary command results 7 and 9. -/
theorem claim_C1_witness :
    ∃ s1 s2 s3 s4 : Sys,
      Step sampleSys (.wk 0 (.setFlag 0 false)) s1
      ∧ Step s1 (.wk 0 (.execCmd (connect_cmd sampleSys.adb "a") 7)) s2
      ∧ Step s2 (.wk 0 (.execCmd (run_server sampleSys.adb "a") 9)) s3
      ∧ Step s3 (.wk 0 (.setFlag 0 true)) s4 := by
  obtain ⟨s1, s2, s3, s4, h1, h2, h3, h4, -⟩ :=
    claim_C1 sampleSys 0 0 ⟨"a", true⟩ (by decide) (by decide) 7 9
  exact ⟨s1, s2, s3, s4, h1, h2, h3, h4⟩

/-- Claim C2: on every iteration the supervisor, for every record in table
order, prints exactly one line `<name>\t<flag>` (and changes nothing
else), then starts exactly one new Worker bound to that record iff the
flag read at the launch point is idle; past the last record it suspends
for the configured interval and restarts the scan at record 0; and from
every supervisor state (in which any pending launch index is in range, as
always holds on reachable states) the supervisor has a next transition —
it has no terminal state. -/
theorem claim_C2 (s : Sys) :
    (∀ i d, s.sup = .scanPrint i → s.devices[i]? = some d →
      (∃ t, Step s (.sup (.printLine (scan_line d))) t)
      ∧ ∀ ev t, Step s (.sup ev) t →
          ev = .printLine (scan_line d)
          ∧ t = { s with out := scan_line d :: s.out, sup := .scanLaunch i })
    ∧ (∀ i d, s.sup = .scanLaunch i → s.devices[i]? = some d →
      ∀ ev t, Step s (.sup ev) t →
        t.sup = .scanPrint (i + 1) ∧ t.out = s.out ∧ t.devices = s.devices
        ∧ (d.done = true → ev = .spawn i ∧ t.workers = s.workers ++ [⟨i, 0⟩])
        ∧ (d.done = false → ev = .advance i ∧ t.workers = s.workers))
    ∧ (∀ i, s.sup = .scanPrint i → s.devices.length ≤ i →
      ∀ ev t, Step s (.sup ev) t →
        ev = .sleep (sleepcp_usleep_arg s.sleep_time)
        ∧ t = { s with sup := .scanPrint 0 })
    ∧ ((∀ i, s.sup = .scanLaunch i → i < s.devices.length) →
      ∃ ev t, Step s (.sup ev) t) := by
  refine ⟨?_, ?_, ?_, ?_⟩
  · intro i d hpc hd
    refine ⟨⟨_, Step.sup_print s i d hpc hd⟩, ?_⟩
    intro ev t h
    rcases step_sup_cases h with ⟨i2, d2, hpc2, hd2, hev, ht⟩
      | ⟨i2, d2, hpc2, _⟩ | ⟨i2, d2, hpc2, _⟩ | ⟨i2, hpc2, hlen, _⟩
    · rw [hpc] at hpc2
      have hii : i = i2 := SupPc.scanPrint.inj hpc2
      subst hii
      rw [hd] at hd2
      have hdd : d = d2 := Option.some.inj hd2
      subst hdd
      exact ⟨hev, ht⟩
    · rw [hpc] at hpc2; simp at hpc2
    · rw [hpc] at hpc2; simp at hpc2
    · rw [hpc] at hpc2
      have hii : i = i2 := SupPc.scanPrint.inj hpc2
      subst hii
      exact absurd hlen (by have := getElem?_some_lt hd; omega)
  · intro i d hpc hd ev t h
    rcases step_sup_cases h with ⟨i2, d2, hpc2, _⟩
      | ⟨i2, d2, hpc2, hd2, hdone, hev, ht⟩
      | ⟨i2, d2, hpc2, hd2, hdone, hev, ht⟩ | ⟨i2, hpc2, _⟩
    · rw [hpc] at hpc2; simp at hpc2
    · rw [hpc] at hpc2
      have hii : i = i2 := SupPc.scanLaunch.inj hpc2
      subst hii
      rw [hd] at hd2
      have hdd : d = d2 := Option.some.inj hd2
      subst hdd
      subst ht
      refine ⟨rfl, rfl, rfl, fun _ => ⟨hev, rfl⟩, fun hf => absurd hdone (by rw [hf]; simp)⟩
    · rw [hpc] at hpc2
      have hii : i = i2 := SupPc.scanLaunch.inj hpc2
      subst hii
      rw [hd] at hd2
      have hdd : d = d2 := Option.some.inj hd2
      subst hdd
      subst ht
      refine ⟨rfl, rfl, rfl, fun ht => absurd hdone (by rw [ht]; simp), fun _ => ⟨hev, rfl⟩⟩
    · rw [hpc] at hpc2; simp at hpc2
  · intro i hpc hlen ev t h
    rcases step_sup_cases h with ⟨i2, d2, hpc2, hd2, _⟩
      | ⟨i2, d2, hpc2, _⟩ | ⟨i2, d2, hpc2, _⟩ | ⟨i2, hpc2, hlen2, hev, ht⟩
    · rw [hpc] at hpc2
      have hii : i = i2 := SupPc.scanPrint.inj hpc2
      subst hii
      exact absurd hlen (by have := getElem?_some_lt hd2; omega)
    · rw [hpc] at hpc2; simp at hpc2
    · rw [hpc] at hpc2; simp at hpc2
    · exact ⟨hev, ht⟩
  · intro hinv
    cases hsup : s.sup with
    | scanPrint i =>
      by_cases hlt : i < s.devices.length
      · exact ⟨_, _, Step.sup_print s i _ hsup (List.getElem?_eq_getElem hlt)⟩
      · exact ⟨_, _, Step.sup_scan_end s i hsup (by omega)⟩
    | scanLaunch i =>
      have hlt := hinv i hsup
      cases hdone : (s.devices.get ⟨i, hlt⟩).done
      · exact ⟨_, _, Step.sup_launch_busy s i _ hsup (List.getElem?_eq_getElem hlt) hdone⟩
      · exact ⟨_, _, Step.sup_launch_idle s i _ hsup (List.getElem?_eq_getElem hlt) hdone⟩

/-- Witness for C2 at a concrete state: the print transition exists for
device 0 of `sampleSys`, and the supervisor has a next transition there. -/
theorem claim_C2_witness :
    (∃ t, Step sampleSys (.sup (.printLine (scan_line ⟨"a", true⟩))) t)
    ∧ (∃ ev t, Step sampleSys (.sup ev) t) :=
  ⟨((claim_C2 sampleSys).1 0 ⟨"a", true⟩ rfl (by decide)).1,
   (claim_C2 sampleSys).2.2.2 (fun i h => by simp [sampleSys] at h)⟩

/-- Claim C3: the device-list parser splits on `/`, trims only leading and
trailing whitespace of each segment (every emitted name is a core of some
segment flanked by all-whitespace lists, so internal whitespace survives),
drops segments that are empty after trimming, preserves the relative order
of the survivors (the emitted names are exactly the non-empty stripped
segments in order), is a function (hence deterministic), and satisfies the
two examples from the specification. -/
theorem claim_C3 (s : String) :
    ((get_devices s).map (fun d => d.name.data)
        = ((cppSplit '/' s.toList).map strip_spaces).filter (fun t => !t.isEmpty))
    ∧ (∀ d, d ∈ get_devices s →
        d.name.data ≠ []
        ∧ (∃ seg, seg ∈ cppSplit '/' s.toList
            ∧ ∃ pre post, seg = pre ++ d.name.data ++ post
              ∧ pre.all cIsSpace = true ∧ post.all cIsSpace = true)
        ∧ (∀ a t, d.name.data = a :: t → cIsSpace a = false)
        ∧ (∀ a, d.name.data.getLast? = some a → cIsSpace a = false))
    ∧ get_devices " a /b/ /c " = [⟨"a", true⟩, ⟨"b", true⟩, ⟨"c", true⟩]
    ∧ get_devices "/" = [] := by
  refine ⟨filterMap_mk_device_names _, ?_, by decide, by decide⟩
  intro d hd
  rw [get_devices, List.mem_filterMap] at hd
  obtain ⟨seg, hseg, hmk⟩ := hd
  obtain ⟨hname, hdone, hne⟩ := mk_device_eq_some seg d hmk
  have hname2 : d.name.data = strip_spaces seg := hname
  refine ⟨?_, ⟨seg, hseg, ?_⟩, ?_, ?_⟩
  · rw [hname2]; exact hne
  · obtain ⟨pre, post, hdec, hp1, hp2⟩ := strip_decomp seg
    exact ⟨pre, post, by rw [hname2]; exact hdec, hp1, hp2⟩
  · intro a t h
    rw [hname2] at h
    exact strip_head_not_space seg a t h
  · intro a h
    rw [hname2] at h
    exact strip_last_not_space seg a h

/-- Witness for C3 at the concrete input `" a /b/ /c "` and its first
output record. -/
theorem claim_C3_witness :
    (DeviceInfo.mk "a" true).name.data ≠ []
    ∧ (∀ a t, (DeviceInfo.mk "a" true).name.data = a :: t → cIsSpace a = false) := by
  obtain ⟨h1, -, h3, -⟩ := (claim_C3 " a /b/ /c ").2.1 ⟨"a", true⟩ (by decide)
  exact ⟨h1, h3⟩

/-- Claim C4: the device state table created at startup has one record per
non-empty trimmed segment in parser order (its length equals the number of
surviving segments; duplicates such as in `"x/x"` produce two independent
records); every record's flag starts idle (`true`); and no transition of
the system ever adds, removes or renames a record — only flag values
change, and storing a flag at one index leaves every other record
untouched. -/
theorem claim_C4 (s : String) :
    ((get_devices s).length
        = (((cppSplit '/' s.toList).map strip_spaces).filter (fun t => !t.isEmpty)).length)
    ∧ (∀ d, d ∈ get_devices s → d.done = true)
    ∧ get_devices "x/x" = [⟨"x", true⟩, ⟨"x", true⟩]
    ∧ (∀ sys l t, Step sys l t → t.devices.length = sys.devices.length
        ∧ t.devices.map DeviceInfo.name = sys.devices.map DeviceInfo.name)
    ∧ (∀ ds i b j, j ≠ i → (setDone ds i b)[j]? = ds[j]?) := by
  refine ⟨?_, ?_, by decide,
    fun sys l t h => ⟨step_devices_length h, step_names h⟩,
    fun ds i b j hj => setDone_getElem_ne ds i b j hj⟩
  · have h := congrArg List.length (filterMap_mk_device_names (cppSplit '/' s.toList))
    rw [List.length_map] at h
    rw [get_devices]
    exact h
  · intro d hd
    rw [get_devices, List.mem_filterMap] at hd
    obtain ⟨seg, hseg, hmk⟩ := hd
    exact (mk_device_eq_some seg d hmk).2.1

/-- Witness for C4: both records of the duplicate input `"x/x"` are idle,
and flipping the flag of record 0 leaves record 1 unchanged. -/
theorem claim_C4_witness :
    (DeviceInfo.mk "x" true).done = true
    ∧ (setDone [⟨"x", true⟩, ⟨"x", true⟩] 0 false)[1]? = some ⟨"x", true⟩ :=
  ⟨(claim_C4 "x/x").2.1 ⟨"x", true⟩ (by decide),
   by rw [(claim_C4 "x/x").2.2.2.2 [⟨"x", true⟩, ⟨"x", true⟩] 0 false 1 (by decide)]; decide⟩

/-- Claim C5: the two external command strings a Worker issues are exactly
`<bridge-tool> connect <name>` and
`<bridge-tool> -s <name> shell am instrument -w -r -e debug false -e class
com.github.uiautomator.stub.Stub
com.github.uiautomator.test/androidx.test.runner.AndroidJUnitRunner`,
where the bridge tool is the (unmodified) first CLI argument appended to
the initially empty global `adb_exe`. -/
theorem claim_C5 (a n : String) :
    adb_exe_of a = a
    ∧ connect_cmd a n = a ++ " connect " ++ n
    ∧ run_server a n
        = a ++ " -s " ++ n ++ " shell am instrument -w -r -e debug false -e class com.github.uiautomator.stub.Stub com.github.uiautomator.test/androidx.test.runner.AndroidJUnitRunner" := by
  refine ⟨?_, rfl, ?_⟩
  · rw [adb_exe_of, String.empty_append]
  · rw [run_server,
      show ((" shell am instrument -w -r -e debug false -e class com.github.uiautomator.stub.Stub "
            ++ "com.github.uiautomator.test/androidx.test.runner.AndroidJUnitRunner") : String)
          = " shell am instrument -w -r -e debug false -e class com.github.uiautomator.stub.Stub com.github.uiautomator.test/androidx.test.runner.AndroidJUnitRunner"
        from by decide]

/-- Claim C6: with fewer than 4 arguments the program prints the usage
line and the example line to standard error and exits with failure status
1 — the usage result carries no device record and no worker; with 4 or
more arguments startup always succeeds (no further validation) and
proceeds with `adb_exe` from `argv[1]`, the interval from `argv[2]` and
the device table from `argv[3]`. -/
theorem claim_C6 (argv : List String) :
    (argv.length < 4 →
      main_start argv
        = .usageError [usage_msg (argv.headD ""), example_msg (argv.headD "")] 1)
    ∧ (4 ≤ argv.length →
      ∃ a0 a1 a2 a3 rest, argv = a0 :: a1 :: a2 :: a3 :: rest
        ∧ main_start argv
          = .started (adb_exe_of a1) (atoi a2.toList) (get_devices a3)) := by
  rcases argv with _ | ⟨a0, argv⟩
  · exact ⟨fun _ => rfl, fun h => by simp at h⟩
  rcases argv with _ | ⟨a1, argv⟩
  · exact ⟨fun _ => rfl, fun h => by simp at h⟩
  rcases argv with _ | ⟨a2, argv⟩
  · exact ⟨fun _ => rfl, fun h => by simp at h⟩
  rcases argv with _ | ⟨a3, rest⟩
  · exact ⟨fun _ => rfl, fun h => by simp at h⟩
  · refine ⟨fun h => ?_, fun _ => ⟨a0, a1, a2, a3, rest, rfl, rfl⟩⟩
    exfalso
    simp at h
    omega

/-- Witness for C6: a 1-argument invocation fails with the two stderr
lines and status 1; a 4-argument invocation starts. -/
theorem claim_C6_witness :
    main_start ["prog"] = .usageError [usage_msg "prog", example_msg "prog"] 1
    ∧ ∃ a0 a1 a2 a3 rest,
        (["prog", "adb", "5000", "a/b"] : List String) = a0 :: a1 :: a2 :: a3 :: rest
        ∧ main_start ["prog", "adb", "5000", "a/b"]
          = .started (adb_exe_of a1) (atoi a2.toList) (get_devices a3) :=
  ⟨(claim_C6 ["prog"]).1 (by decide),
   (claim_C6 ["prog", "adb", "5000", "a/b"]).2 (by decide)⟩

/-- Claim C7 counterexample: the input `"2147483648"` is out of `int`
range (its strtol value exceeds `2^31 - 1`), yet the decoded value is
`-2147483648`, not `0` as the claim states for out-of-range input. -/
theorem claim_C7_cex :
    (2 ^ 31 : Int) - 1 < strtol_value ("2147483648".toList)
    ∧ atoi ("2147483648".toList) = -2147483648
    ∧ atoi ("2147483648".toList) ≠ 0 := by
  refine ⟨by decide, by decide, by decide⟩

/-- Claim C7 (amended): the interval argument is decoded as a base-10
integer; input with no digits (after optional whitespace and sign)
decodes to 0, and valid input whose value fits in the `int` range decodes
to its exact value. Out-of-range input does not decode to 0: it yields
the `int` truncation of the `long`-saturated value. -/
theorem claim_C7 (s : List Char) :
    (atoi_digits s = [] → atoi s = 0)
    ∧ (atoi_digits s ≠ [] → -(2 ^ 31) ≤ strtol_value s → strtol_value s < 2 ^ 31 →
        atoi s = strtol_value s) := by
  constructor
  · intro h
    rw [atoi, if_pos h]
  · intro h h1 h2
    rw [atoi, if_neg h]
    have hc : clamp_long (strtol_value s) = strtol_value s := by
      rw [clamp_long]
      split_ifs <;> omega
    rw [hc]
    exact wrap32s_eq_self h1 h2

/-- Witness for C7 at two concrete inputs: digitless input decodes to 0
and an in-range input decodes exactly. -/
theorem claim_C7_witness :
    atoi ("junk".toList) = 0 ∧ atoi ("5000".toList) = strtol_value ("5000".toList) :=
  ⟨(claim_C7 ("junk".toList)).1 (by decide),
   (claim_C7 ("5000".toList)).2 (by decide) (by decide) (by decide)⟩

/-- Claim C8: the supervisor's flag read and the worker's entry-time flag
write are not atomic as a pair: from the startup state for a single device
`a` there is an interleaving (two full scans before the first spawned
worker ever runs) that reaches a state with two in-flight workers bound to
the same (single) device record — the at-most-one-worker-per-device
invariant is violated, even though each individual flag access is one
atomic transition. -/
theorem claim_C8 :
    ∃ t : Sys, Reachable raceSys0 t
      ∧ t.workers = [⟨0, 0⟩, ⟨0, 0⟩]
      ∧ t.devices.length = 1
      ∧ ∀ k, k ∈ t.workers → k.dev = 0 ∧ k.pc ≠ 4 := by
  refine ⟨{ adb := adb_exe_of "adb", sleep_time := atoi "0".toList,
            devices := get_devices "a", sup := .scanPrint 1,
            workers := [⟨0, 0⟩, ⟨0, 0⟩],
            out := [scan_line ⟨"a", true⟩, scan_line ⟨"a", true⟩, "Devices:"] },
          ?_, by decide, by decide, ?_⟩
  · have h1 : Step raceSys0 (.sup (.printLine (scan_line ⟨"a", true⟩)))
        { adb := adb_exe_of "adb", sleep_time := atoi "0".toList,
          devices := get_devices "a", sup := .scanLaunch 0, workers := [],
          out := [scan_line ⟨"a", true⟩, "Devices:"] } :=
      Step.sup_print raceSys0 0 ⟨"a", true⟩ rfl (by decide)
    have h2 : Step
        { adb := adb_exe_of "adb", sleep_time := atoi "0".toList,
          devices := get_devices "a", sup := .scanLaunch 0, workers := [],
          out := [scan_line ⟨"a", true⟩, "Devices:"] }
        (.sup (.spawn 0))
        { adb := adb_exe_of "adb", sleep_time := atoi "0".toList,
          devices := get_devices "a", sup := .scanPrint 1, workers := [⟨0, 0⟩],
          out := [scan_line ⟨"a", true⟩, "Devices:"] } :=
      Step.sup_launch_idle _ 0 ⟨"a", true⟩ rfl (by decide) rfl
    have h3 : Step
        { adb := adb_exe_of "adb", sleep_time := atoi "0".toList,
          devices := get_devices "a", sup := .scanPrint 1, workers := [⟨0, 0⟩],
          out := [scan_line ⟨"a", true⟩, "Devices:"] }
        (.sup (.sleep (sleepcp_usleep_arg (atoi "0".toList))))
        { adb := adb_exe_of "adb", sleep_time := atoi "0".toList,
          devices := get_devices "a", sup := .scanPrint 0, workers := [⟨0, 0⟩],
          out := [scan_line ⟨"a", true⟩, "Devices:"] } :=
      Step.sup_scan_end _ 1 rfl (by decide)
    have h4 : Step
        { adb := adb_exe_of "adb", sleep_time := atoi "0".toList,
          devices := get_devices "a", sup := .scanPrint 0, workers := [⟨0, 0⟩],
          out := [scan_line ⟨"a", true⟩, "Devices:"] }
        (.sup (.printLine (scan_line ⟨"a", true⟩)))
        { adb := adb_exe_of "adb", sleep_time := atoi "0".toList,
          devices := get_devices "a", sup := .scanLaunch 0, workers := [⟨0, 0⟩],
          out := [scan_line ⟨"a", true⟩, scan_line ⟨"a", true⟩, "Devices:"] } :=
      Step.sup_print _ 0 ⟨"a", true⟩ rfl (by decide)
    have h5 : Step
        { adb := adb_exe_of "adb", sleep_time := atoi "0".toList,
          devices := get_devices "a", sup := .scanLaunch 0, workers := [⟨0, 0⟩],
          out := [scan_line ⟨"a", true⟩, scan_line ⟨"a", true⟩, "Devices:"] }
        (.sup (.spawn 0))
        { adb := adb_exe_of "adb", sleep_time := atoi "0".toList,
          devices := get_devices "a", sup := .scanPrint 1,
          workers := [⟨0, 0⟩, ⟨0, 0⟩],
          out := [scan_line ⟨"a", true⟩, scan_line ⟨"a", true⟩, "Devices:"] } :=
      Step.sup_launch_idle _ 0 ⟨"a", true⟩ rfl (by decide) rfl
    exact Relation.ReflTransGen.tail
      (Relation.ReflTransGen.tail
        (Relation.ReflTransGen.tail
          (Relation.ReflTransGen.tail
            (Relation.ReflTransGen.single ⟨_, h1⟩) ⟨_, h2⟩) ⟨_, h3⟩) ⟨_, h4⟩) ⟨_, h5⟩
  · intro k hk
    simp at hk
    subst hk
    exact ⟨rfl, by decide⟩

/-- Claim C9: in every reachable state the stdout transcript is a stack of
per-device scan lines on top of exactly one header line `Devices:`
(printed before the first scan and never again — no scan line can equal
the header); every scan line renders the flag as the numeral `1` (idle) or
`0` (busy), never as text, for a name present in the device table. -/
theorem claim_C9 (adb : String) (st : Int) (devs : List DeviceInfo) (t : Sys)
    (h : Reachable (initSys adb st devs) t) :
    (initSys adb st devs).out = ["Devices:"]
    ∧ ∃ pre, t.out = pre ++ ["Devices:"]
        ∧ ∀ l, l ∈ pre → l ≠ "Devices:"
            ∧ ∃ d : DeviceInfo, d.name ∈ t.devices.map DeviceInfo.name
                ∧ ((l = d.name ++ "\t" ++ "1" ∧ d.done = true)
                    ∨ (l = d.name ++ "\t" ++ "0" ∧ d.done = false)) := by
  refine ⟨rfl, ?_⟩
  induction h with
  | refl => exact ⟨[], rfl, fun l hl => absurd hl (List.not_mem_nil l)⟩
  | tail hreach hstep ih =>
    obtain ⟨pre, hout, hpre⟩ := ih
    obtain ⟨l0, hstep0⟩ := hstep
    rcases step_out hstep0 with hsame | ⟨i, d, hd, hnew⟩
    · refine ⟨pre, by rw [hsame, hout], ?_⟩
      intro l hl
      obtain ⟨hne, d0, hmem, hshape⟩ := hpre l hl
      exact ⟨hne, d0, by rw [step_names hstep0]; exact hmem, hshape⟩
    · refine ⟨scan_line d :: pre, by rw [hnew, hout]; rfl, ?_⟩
      intro l hl
      rcases List.mem_cons.mp hl with hle | hl2
      · subst hle
        refine ⟨scan_line_ne_header d, d, ?_, ?_⟩
        · rw [step_names hstep0]
          exact List.mem_map_of_mem DeviceInfo.name (getElem?_some_mem hd)
        · cases hdone : d.done
          · exact Or.inr ⟨by simp [scan_line, hdone], rfl⟩
          · exact Or.inl ⟨by simp [scan_line, hdone], rfl⟩
      · obtain ⟨hne, d0, hmem, hshape⟩ := hpre l hl2
        exact ⟨hne, d0, by rw [step_names hstep0]; exact hmem, hshape⟩

/-- Witness for C9 at the initial state of a concrete run (the empty
reachability path). -/
theorem claim_C9_witness :
    (initSys "adb" 0 []).out = ["Devices:"]
    ∧ ∃ pre, (initSys "adb" 0 []).out = pre ++ ["Devices:"]
        ∧ ∀ l, l ∈ pre → l ≠ "Devices:"
            ∧ ∃ d : DeviceInfo, d.name ∈ (initSys "adb" 0 []).devices.map DeviceInfo.name
                ∧ ((l = d.name ++ "\t" ++ "1" ∧ d.done = true)
                    ∨ (l = d.name ++ "\t" ++ "0" ∧ d.done = false)) :=
  claim_C9 "adb" 0 [] (initSys "adb" 0 []) Relation.ReflTransGen.refl

/-- Claim C10: on the non-Windows build, for a parsed `int` interval `m`
the per-scan suspension is requested as `m * 1000` microseconds computed
in wrapping 32-bit signed arithmetic (this is the value every sleep
transition of the loop carries); the requested value is a valid
(nonnegative) duration equal to exactly `m` milliseconds if and only if
`0 ≤ m ≤ 2147483` — larger parsed values overflow the conversion. -/
theorem claim_C10 (m : Int) (h1 : -(2 ^ 31) ≤ m) (h2 : m < 2 ^ 31) :
    ((sleepcp_usleep_arg m = 1000 * m ∧ 0 ≤ sleepcp_usleep_arg m)
      ↔ (0 ≤ m ∧ m ≤ 2147483))
    ∧ (∀ s u t, Step s (.sup (.sleep u)) t → u = sleepcp_usleep_arg s.sleep_time) := by
  constructor
  · constructor
    · rintro ⟨he, hn⟩
      have hb := wrap32s_bounds (m * 1000)
      rw [sleepcp_usleep_arg] at he hn
      constructor <;> omega
    · rintro ⟨h3, h4⟩
      have he : wrap32s (m * 1000) = m * 1000 := wrap32s_eq_self (by omega) (by omega)
      rw [sleepcp_usleep_arg, he]
      omega
  · intro s u t h
    cases h
    rfl

/-- Witness for C10 at the concrete interval 5000 ms. -/
theorem claim_C10_witness :
    ((sleepcp_usleep_arg 5000 = 1000 * 5000 ∧ 0 ≤ sleepcp_usleep_arg 5000)
      ↔ (0 ≤ (5000 : Int) ∧ (5000 : Int) ≤ 2147483))
    ∧ (∀ s u t, Step s (.sup (.sleep u)) t → u = sleepcp_usleep_arg s.sleep_time) :=
  claim_C10 5000 (by decide) (by decide)

